import Mathlib

/-!
Verification development for the ik_fk_limb rigging scripts.

The geometric core of src/video4_ik_fk_limb.py is embedded shallowly:
vector helpers (add_vectors, subtract_vectors, scale_vector) and the MEL
mag call become functions over a real-valued Vec3; the pole-vector
placement computation of create_pv_control, the offset computation of
bake_trs_offsetParentMatrix, the pole_vector_connection node network, and
the side-tag naming of create_ik_control / create_pv_control become pure
functions; the spec's LimbRigPlanner, which has no counterpart under src/,
is modelled from the spec.
-/

/-- A 3D vector with real components, standing for the source's three
element x y z lists. -/
@[ext]
structure Vec3 where
  x : ℝ
  y : ℝ
  z : ℝ

/-- Embedding of add_vectors: the loop adds the vectors componentwise. -/
def add_vectors (vectorA vectorB : Vec3) : Vec3 :=
  ⟨vectorA.x + vectorB.x, vectorA.y + vectorB.y, vectorA.z + vectorB.z⟩

/-- Embedding of subtract_vectors: the loop subtracts componentwise
(vectorA[i] - vectorB[i]). -/
def subtract_vectors (vectorA vectorB : Vec3) : Vec3 :=
  ⟨vectorA.x - vectorB.x, vectorA.y - vectorB.y, vectorA.z - vectorB.z⟩

/-- Embedding of scale_vector: the loop multiplies each component by the
scale factor. -/
def scale_vector (vector : Vec3) (scale_factor : ℝ) : Vec3 :=
  ⟨vector.x * scale_factor, vector.y * scale_factor, vector.z * scale_factor⟩

/-- Embedding of the MEL mag call used in create_pv_control: the Euclidean
norm of a 3D vector. -/
noncomputable def mag (v : Vec3) : ℝ :=
  Real.sqrt (v.x ^ 2 + v.y ^ 2 + v.z ^ 2)

/-- The error kinds of the spec's error-handling design (section 7). -/
inductive RigError where
  | DegenerateTransformError
  | DegenerateLimbError
  | NameCollisionError
  | InvalidLimbSpecError
  deriving DecidableEq

/-- The pole-vector placement computation of create_pv_control
(src/video4_ik_fk_limb.py lines 152-171): half_way is the midpoint of the
start to end segment, subtract_half_way the bend vector from that midpoint
to the mid joint, and the final position adds the (possibly rescaled) bend
vector to the mid joint position. The source hardcodes the minimum
distance 5; it is a parameter here, instantiated at 5 where the claims
evaluate it. Modelled from the spec: the DegenerateLimbError branch at
zero bend-vector length, placed exactly where the source's 5/length
division raises a ZeroDivisionError. -/
noncomputable def computePoleVectorPosition (start_pos mid_pos end_pos : Vec3)
    (minDistance : ℝ) : Except RigError Vec3 :=
  let start_to_end := subtract_vectors end_pos start_pos
  let scaled := scale_vector start_to_end 0.5
  let half_way := add_vectors scaled start_pos
  let subtract_half_way := subtract_vectors mid_pos half_way
  let length := mag subtract_half_way
  if length < minDistance then
    if length = 0 then Except.error RigError.DegenerateLimbError
    else
      Except.ok (add_vectors (scale_vector subtract_half_way (minDistance / length)) mid_pos)
  else
    Except.ok (add_vectors subtract_half_way mid_pos)

/-- The bend vector of the pole-vector computation: the mid joint position
minus the midpoint of the straight start to end line (the source's
subtract_half_way value). -/
noncomputable def bend_direction (start_pos mid_pos end_pos : Vec3) : Vec3 :=
  subtract_vectors mid_pos
    (add_vectors (scale_vector (subtract_vectors end_pos start_pos) 0.5) start_pos)

theorem computePoleVectorPosition_cases (s m e : Vec3) (md : ℝ) :
    computePoleVectorPosition s m e md =
      if mag (bend_direction s m e) < md then
        if mag (bend_direction s m e) = 0 then Except.error RigError.DegenerateLimbError
        else
          Except.ok (add_vectors
            (scale_vector (bend_direction s m e) (md / mag (bend_direction s m e))) m)
      else Except.ok (add_vectors (bend_direction s m e) m) := rfl

theorem sub_add_scale_bend (m h : Vec3) (k : ℝ) :
    subtract_vectors (add_vectors (scale_vector (subtract_vectors m h) k) m) h =
      scale_vector (subtract_vectors m h) (k + 1) := by
  simp only [subtract_vectors, add_vectors, scale_vector, Vec3.mk.injEq]
  refine ⟨by ring, by ring, by ring⟩

theorem mag_scale_vector (v : Vec3) (k : ℝ) :
    mag (scale_vector v k) = |k| * mag v := by
  simp only [mag, scale_vector]
  rw [show (v.x * k) ^ 2 + (v.y * k) ^ 2 + (v.z * k) ^ 2
        = k ^ 2 * (v.x ^ 2 + v.y ^ 2 + v.z ^ 2) by ring,
      Real.sqrt_mul (sq_nonneg k), Real.sqrt_sq_eq_abs]

/-- Claim C1, corrected: when the bend vector already has length at least
minDistance, create_pv_control does not rescale it and returns the mid
joint position plus the bend vector (the source adds subtract_half_way to
mid_pos, not to the midpoint). -/
theorem pv_no_rescale_adds_to_mid (s m e : Vec3) (md : ℝ)
    (h : md ≤ mag (bend_direction s m e)) :
    computePoleVectorPosition s m e md =
      Except.ok (add_vectors (bend_direction s m e) m) := by
  rw [computePoleVectorPosition_cases, if_neg (not_lt.mpr h)]

/-- Witness for C1's corrected theorem at the spec's own example: the
result is (-5, 10, 0). -/
theorem pv_no_rescale_adds_to_mid_witness :
    computePoleVectorPosition ⟨0, 0, 0⟩ ⟨0, 5, 0⟩ ⟨10, 0, 0⟩ 5 =
      Except.ok ⟨-5, 10, 0⟩ := by
  have hd : bend_direction ⟨0, 0, 0⟩ ⟨0, 5, 0⟩ ⟨10, 0, 0⟩ = ⟨-5, 5, 0⟩ := by
    norm_num [bend_direction, subtract_vectors, add_vectors, scale_vector]
  have hm : (5 : ℝ) ≤ mag (bend_direction ⟨0, 0, 0⟩ ⟨0, 5, 0⟩ ⟨10, 0, 0⟩) := by
    rw [hd]
    simp only [mag]
    norm_num
    exact Real.le_sqrt_of_sq_le (by norm_num)
  rw [pv_no_rescale_adds_to_mid ⟨0, 0, 0⟩ ⟨0, 5, 0⟩ ⟨10, 0, 0⟩ 5 hm, hd]
  norm_num [add_vectors]

/-- Counterexample to claim C1 as stated: on the spec's example the code
does not return the mid joint position (0, 5, 0); it returns (-5, 10, 0). -/
theorem pv_example_result_ne_mid :
    computePoleVectorPosition ⟨0, 0, 0⟩ ⟨0, 5, 0⟩ ⟨10, 0, 0⟩ 5 ≠
      Except.ok ⟨0, 5, 0⟩ := by
  have hd : bend_direction ⟨0, 0, 0⟩ ⟨0, 5, 0⟩ ⟨10, 0, 0⟩ = ⟨-5, 5, 0⟩ := by
    norm_num [bend_direction, subtract_vectors, add_vectors, scale_vector]
  have hm : ¬ mag (bend_direction ⟨0, 0, 0⟩ ⟨0, 5, 0⟩ ⟨10, 0, 0⟩) < 5 := by
    apply not_lt.mpr
    rw [hd]
    simp only [mag]
    norm_num
    exact Real.le_sqrt_of_sq_le (by norm_num)
  rw [computePoleVectorPosition_cases, if_neg hm, hd]
  norm_num [add_vectors]

/-- Claim C2, corrected: when the bend vector is shorter than minDistance
but not zero, create_pv_control rescales it by minDistance divided by its
length and adds the rescaled vector to the mid joint position (not to the
midpoint), and the result lies at distance at least minDistance from the
straight-line midpoint. -/
theorem pv_rescale_result (s m e : Vec3) (md : ℝ)
    (h0 : 0 < mag (bend_direction s m e)) (h1 : mag (bend_direction s m e) < md) :
    computePoleVectorPosition s m e md =
      Except.ok (add_vectors
        (scale_vector (bend_direction s m e) (md / mag (bend_direction s m e))) m) ∧
    md ≤ mag (subtract_vectors
        (add_vectors
          (scale_vector (bend_direction s m e) (md / mag (bend_direction s m e))) m)
        (add_vectors (scale_vector (subtract_vectors e s) 0.5) s)) := by
  constructor
  · rw [computePoleVectorPosition_cases, if_pos h1, if_neg (ne_of_gt h0)]
  · have hmd : 0 < md := lt_trans h0 h1
    simp only [bend_direction] at h0 h1 ⊢
    rw [sub_add_scale_bend, mag_scale_vector]
    have hk : 0 < md / mag (subtract_vectors m
        (add_vectors (scale_vector (subtract_vectors e s) 0.5) s)) + 1 := by
      have := div_pos hmd h0
      linarith
    rw [abs_of_pos hk]
    have hne : mag (subtract_vectors m
        (add_vectors (scale_vector (subtract_vectors e s) 0.5) s)) ≠ 0 :=
      ne_of_gt h0
    have heq : (md / mag (subtract_vectors m
          (add_vectors (scale_vector (subtract_vectors e s) 0.5) s)) + 1) *
        mag (subtract_vectors m
          (add_vectors (scale_vector (subtract_vectors e s) 0.5) s)) =
        md + mag (subtract_vectors m
          (add_vectors (scale_vector (subtract_vectors e s) 0.5) s)) := by
      field_simp
    rw [heq]
    linarith

/-- Witness for C2's corrected theorem at the spec's own example: the bend
vector (0, 1, 0) is rescaled to (0, 5, 0) and added to the mid joint,
giving (5, 6, 0). -/
theorem pv_rescale_result_witness :
    computePoleVectorPosition ⟨0, 0, 0⟩ ⟨5, 1, 0⟩ ⟨10, 0, 0⟩ 5 =
      Except.ok ⟨5, 6, 0⟩ := by
  have hd : bend_direction ⟨0, 0, 0⟩ ⟨5, 1, 0⟩ ⟨10, 0, 0⟩ = ⟨0, 1, 0⟩ := by
    norm_num [bend_direction, subtract_vectors, add_vectors, scale_vector]
  have hm1 : mag (⟨0, 1, 0⟩ : Vec3) = 1 := by
    simp only [mag]
    norm_num
  have hm : mag (bend_direction ⟨0, 0, 0⟩ ⟨5, 1, 0⟩ ⟨10, 0, 0⟩) = 1 := by
    rw [hd]
    exact hm1
  have h := (pv_rescale_result ⟨0, 0, 0⟩ ⟨5, 1, 0⟩ ⟨10, 0, 0⟩ 5
      (by rw [hm]; norm_num) (by rw [hm]; norm_num)).1
  rw [h, hd, hm1]
  norm_num [add_vectors, scale_vector]

/-- Counterexample to claim C2 as stated: on the spec's example the code
returns (5, 6, 0), not (5, 5, 0). -/
theorem pv_rescale_example_ne :
    computePoleVectorPosition ⟨0, 0, 0⟩ ⟨5, 1, 0⟩ ⟨10, 0, 0⟩ 5 ≠
      Except.ok ⟨5, 5, 0⟩ := by
  have hd : bend_direction ⟨0, 0, 0⟩ ⟨5, 1, 0⟩ ⟨10, 0, 0⟩ = ⟨0, 1, 0⟩ := by
    norm_num [bend_direction, subtract_vectors, add_vectors, scale_vector]
  have hm1 : mag (⟨0, 1, 0⟩ : Vec3) = 1 := by
    simp only [mag]
    norm_num
  have hm : mag (bend_direction ⟨0, 0, 0⟩ ⟨5, 1, 0⟩ ⟨10, 0, 0⟩) = 1 := by
    rw [hd]
    exact hm1
  rw [computePoleVectorPosition_cases, if_pos (by rw [hm]; norm_num),
      if_neg (by rw [hm]; norm_num), hd, hm1]
  norm_num [add_vectors, scale_vector]

/-- Claim C3: a zero-length bend vector (mid joint on the start to end
line) makes the pole-vector computation fail with DegenerateLimbError
instead of dividing by zero or returning a position. -/
theorem pv_degenerate_error (s m e : Vec3) (md : ℝ)
    (h0 : mag (bend_direction s m e) = 0) (hmd : 0 < md) :
    computePoleVectorPosition s m e md = Except.error RigError.DegenerateLimbError := by
  rw [computePoleVectorPosition_cases, if_pos (by rw [h0]; exact hmd), if_pos h0]

/-- Witness for C3 at the spec's example (0,0,0), (1,0,0), (2,0,0). -/
theorem pv_degenerate_error_witness :
    computePoleVectorPosition ⟨0, 0, 0⟩ ⟨1, 0, 0⟩ ⟨2, 0, 0⟩ 5 =
      Except.error RigError.DegenerateLimbError := by
  apply pv_degenerate_error
  · have hd : bend_direction ⟨0, 0, 0⟩ ⟨1, 0, 0⟩ ⟨2, 0, 0⟩ = ⟨0, 0, 0⟩ := by
      norm_num [bend_direction, subtract_vectors, add_vectors, scale_vector]
    rw [hd]
    simp [mag]
  · norm_num

/-- 4x4 real transform matrices, in the host's row-vector convention: a
node's world matrix is its local matrix times its offset parent matrix
times the parent's world matrix, and the translation sits in row 3. -/
abbrev Mat4 := Matrix (Fin 4) (Fin 4) ℝ

/-- The offset computation of bake_trs_offsetParentMatrix
(src/video4_ik_fk_limb.py lines 302-314): with a parent, the multMatrix
node multiplies the temp duplicate's world matrix (the target world pose)
by the parent's world inverse matrix; with no parent, the offset is the
target world matrix itself. -/
noncomputable def bake_trs_offsetParentMatrix (targetWorld : Mat4)
    (parentWorld : Option Mat4) : Mat4 :=
  match parentWorld with
  | some p => targetWorld * p⁻¹
  | none => targetWorld

/-- Per-axis translate, rotate and scale channels of a transform node. -/
structure Channels where
  translate : Vec3
  rotate : Vec3
  scale : Vec3

/-- The channel values bake_trs_offsetParentMatrix leaves on the node: its
setAttr loop writes 0.0 to every translate and rotate axis and 1.0 to
every scale axis. -/
def bake_zeroed_channels : Channels :=
  ⟨⟨0, 0, 0⟩, ⟨0, 0, 0⟩, ⟨1, 1, 1⟩⟩

/-- Identity transform channels: zero translate and rotate, unit scale. -/
def identity_channels : Channels :=
  ⟨⟨0, 0, 0⟩, ⟨0, 0, 0⟩, ⟨1, 1, 1⟩⟩

/-- Claim C4: for an invertible parent world matrix, the offset computed
by the parent branch of bake_trs_offsetParentMatrix, composed back with
the parent world matrix, reproduces the target world matrix exactly, and
in particular within 1e-6 per component. -/
theorem bake_offset_roundtrip (targetWorld parentWorld : Mat4)
    (h : IsUnit parentWorld.det) :
    bake_trs_offsetParentMatrix targetWorld (some parentWorld) * parentWorld
      = targetWorld ∧
    ∀ i j, |(bake_trs_offsetParentMatrix targetWorld (some parentWorld) * parentWorld) i j
        - targetWorld i j| ≤ 1 / 1000000 := by
  have key : bake_trs_offsetParentMatrix targetWorld (some parentWorld) * parentWorld
      = targetWorld := by
    show targetWorld * parentWorld⁻¹ * parentWorld = targetWorld
    rw [mul_assoc, Matrix.nonsing_inv_mul parentWorld h, mul_one]
  refine ⟨key, fun i j => ?_⟩
  rw [key, sub_self, abs_zero]
  norm_num

/-- Witness for C4 at the identity parent and identity target. -/
theorem bake_offset_roundtrip_witness :
    bake_trs_offsetParentMatrix (1 : Mat4) (some 1) * 1 = 1 ∧
    ∀ i j, |(bake_trs_offsetParentMatrix (1 : Mat4) (some 1) * 1) i j - (1 : Mat4) i j|
      ≤ 1 / 1000000 :=
  bake_offset_roundtrip 1 1 (by simp)

/-- Claim C5: with no parent, bake_trs_offsetParentMatrix returns the
target world matrix unchanged, and the node's local channels are left at
identity. -/
theorem bake_offset_no_parent_identity :
    (∀ targetWorld : Mat4, bake_trs_offsetParentMatrix targetWorld none = targetWorld) ∧
    bake_zeroed_channels = identity_channels :=
  ⟨fun _ => rfl, rfl⟩

/-- Modelled from the spec: computeOffset, the total offset solver with
the invertibility check of spec section 4.2. The source delegates
inversion to the host's worldInverseMatrix attribute and has no check for
a degenerate parent; the spec requires a DegenerateTransformError for a
non-invertible parent world matrix. The successful branches agree with
bake_trs_offsetParentMatrix. -/
noncomputable def computeOffset (targetWorld : Mat4) (parentWorld : Option Mat4) :
    Except RigError Mat4 :=
  match parentWorld with
  | none => Except.ok targetWorld
  | some p =>
    if p.det = 0 then Except.error RigError.DegenerateTransformError
    else Except.ok (targetWorld * p⁻¹)

/-- Claim C6: computeOffset fails with DegenerateTransformError exactly
for a non-invertible parent world matrix; for an invertible parent it
returns the offset and raises no error. -/
theorem computeOffset_degenerate_iff (targetWorld parentWorld : Mat4) :
    (computeOffset targetWorld (some parentWorld) =
        Except.error RigError.DegenerateTransformError ↔ parentWorld.det = 0) ∧
    (parentWorld.det ≠ 0 →
      computeOffset targetWorld (some parentWorld) =
        Except.ok (targetWorld * parentWorld⁻¹)) := by
  have hred : computeOffset targetWorld (some parentWorld) =
      if parentWorld.det = 0 then Except.error RigError.DegenerateTransformError
      else Except.ok (targetWorld * parentWorld⁻¹) := rfl
  constructor
  · by_cases hdet : parentWorld.det = 0
    · simp [hred, hdet]
    · simp [hred, hdet]
  · intro hdet
    rw [hred, if_neg hdet]

/-- Witness for C6: a zero parent world matrix is non-invertible and
produces the degenerate-transform error. -/
theorem computeOffset_degenerate_iff_witness :
    computeOffset (1 : Mat4) (some (0 : Mat4)) =
      Except.error RigError.DegenerateTransformError :=
  (computeOffset_degenerate_iff 1 0).1.mpr (Matrix.det_zero ⟨(0 : Fin 4)⟩)

/-- The value driven onto the ik handle's poleVector input by
pole_vector_connection (src/video4_ik_fk_limb.py lines 180-212): the
first plusMinusAverage node (operation 2) subtracts the start joint's
world translation from the pole control's world translation, and the
second one sums the start joint's world translation with that
difference. -/
def pole_vector_connection (start_translation pv_translation : Vec3) : Vec3 :=
  let minus_output := subtract_vectors pv_translation start_translation
  add_vectors start_translation minus_output

/-- Claim C9: the subtract and add node network of pole_vector_connection
drives the pole-vector input with exactly the pole control's world
translation. -/
theorem pole_vector_connection_eq_pv (start_translation pv_translation : Vec3) :
    pole_vector_connection start_translation pv_translation = pv_translation := by
  cases start_translation
  cases pv_translation
  simp only [pole_vector_connection, subtract_vectors, add_vectors, Vec3.mk.injEq]
  refine ⟨by ring, by ring, by ring⟩

/-- Python substring containment, the in operator on strings: the first
string occurs contiguously somewhere in the second. -/
def strIn (sub s : String) : Bool :=
  decide (sub.data <:+: s.data)

/-- The side-tag name choice of create_ik_control
(src/video4_ik_fk_limb.py lines 101-106): a default of C_ik_ctrl,
overwritten to L_ik_ctrl if the end joint's name contains L_, then
overwritten to R_ik_ctrl if it contains R_. -/
def ik_control_name (end_joint : String) : String :=
  let ik_control := "C_ik_ctrl"
  let ik_control := if strIn "L_" end_joint then "L_ik_ctrl" else ik_control
  let ik_control := if strIn "R_" end_joint then "R_ik_ctrl" else ik_control
  ik_control

/-- The side-tag name choice of create_pv_control
(src/video4_ik_fk_limb.py lines 136-141), same shape as
create_ik_control's. -/
def pv_control_name (end_joint : String) : String :=
  let pv_control := "C_pv_ctrl"
  let pv_control := if strIn "L_" end_joint then "L_pv_ctrl" else pv_control
  let pv_control := if strIn "R_" end_joint then "R_pv_ctrl" else pv_control
  pv_control

/-- Claim C10: side-tag resolution in create_ik_control and
create_pv_control tests substring containment anywhere in the end joint's
name, defaulting to the C_ names, with L_ containment selecting the L_
names, R_ containment selecting the R_ names, and R_ winning when both
occur because its check runs last. -/
theorem side_tag_name_resolution (n : String) :
    (strIn "L_" n = false → strIn "R_" n = false →
      ik_control_name n = "C_ik_ctrl" ∧ pv_control_name n = "C_pv_ctrl") ∧
    (strIn "L_" n = true → strIn "R_" n = false →
      ik_control_name n = "L_ik_ctrl" ∧ pv_control_name n = "L_pv_ctrl") ∧
    (strIn "R_" n = true →
      ik_control_name n = "R_ik_ctrl" ∧ pv_control_name n = "R_pv_ctrl") := by
  cases hL : strIn "L_" n <;> cases hR : strIn "R_" n <;>
    simp [ik_control_name, pv_control_name, hL, hR]

/-- Witness for C10: in a name where both side tags occur away from the
front, containment is detected and the R_ name wins. -/
theorem side_tag_name_resolution_witness :
    ik_control_name "arm_L_R_wrist" = "R_ik_ctrl" ∧
    pv_control_name "arm_L_R_wrist" = "R_pv_ctrl" :=
  (side_tag_name_resolution "arm_L_R_wrist").2.2 (by decide)

/-- Python str.replace as used by duplicate_joints and create_fk_controls
to derive new names: replace every non-overlapping occurrence of the
search term, scanning left to right. The fuel argument, instantiated with
the length of the scanned character list, makes the recursion structural;
one character or one whole match is consumed per step, so that fuel always
suffices. An empty search term leaves the string unchanged here; the
naming rules in the claims always use non-empty search terms. -/
def replaceFuel (search rep : List Char) : Nat → List Char → List Char
  | _, [] => []
  | 0, s => s
  | fuel + 1, c :: rest =>
    if search.isPrefixOf (c :: rest) ∧ search ≠ [] then
      rep ++ replaceFuel search rep fuel ((c :: rest).drop search.length)
    else c :: replaceFuel search rep fuel rest

/-- Python str.replace on strings, via replaceFuel on the character data. -/
def strReplace (s search rep : String) : String :=
  ⟨replaceFuel search.data rep.data s.data.length s.data⟩

/-- The six standard Euler rotate orders (spec section 3). -/
inductive RotateOrder where
  | xyz | yzx | zxy | xzy | yxz | zyx
  deriving DecidableEq

/-- A skin joint sampled from the host scene: name, world transform and
rotate order (spec section 3). -/
structure JointSpec where
  name : String
  world : Mat4
  rotateOrder : RotateOrder

/-- A limb description: ordered joints root to end, the search/replace
naming rule applied by duplicate_joints, and the second rule applied by
create_fk_controls. -/
structure LimbSpec where
  joints : List JointSpec
  search : String
  replace : String
  fk_search : String
  fk_replace : String

/-- The kinds of planned entities (spec section 3). -/
inductive EntryKind where
  | DuplicateJoint
  | FkControl
  | IkControl
  | PvControl
  deriving DecidableEq

/-- One planned entity: kind, resolved name, rotate order for joints, and
the offset transform the adapter must apply (spec section 3). -/
structure ControlPlanEntry where
  kind : EntryKind
  name : String
  rotateOrder : Option RotateOrder
  offset : Mat4

/-- The world-space position carried by a transform matrix: row 3 in the
host's row-vector convention. -/
def translationOf (m : Mat4) : Vec3 :=
  ⟨m 3 0, m 3 1, m 3 2⟩

/-- A pure-translation transform placing a node at the given position. -/
def translationMatrix (v : Vec3) : Mat4 :=
  Matrix.of fun i j =>
    if i = 3 then
      (if j = 0 then v.x else if j = 1 then v.y else if j = 2 then v.z else 1)
    else if (i : Fin 4) = j then 1 else 0

theorem translationOf_translationMatrix (v : Vec3) :
    translationOf (translationMatrix v) = v := by
  cases v
  simp [translationOf, translationMatrix]

/-- The per-joint planning step of duplicate_joints
(src/video4_ik_fk_limb.py lines 12-45) as a pure computation, per spec
section 4.4 step 1: each new joint is named by the search/replace rule,
carries the source joint's rotate order, and is placed by an offset of its
source world transform against the previously emitted duplicate, whose
world transform equals the previous source joint's. The root duplicate
has no parent. -/
noncomputable def dup_entries (search rep : String) :
    Option Mat4 → List JointSpec → List ControlPlanEntry
  | _, [] => []
  | parentWorld, j :: rest =>
    { kind := EntryKind.DuplicateJoint,
      name := strReplace j.name search rep,
      rotateOrder := some j.rotateOrder,
      offset := bake_trs_offsetParentMatrix j.world parentWorld } ::
      dup_entries search rep (some j.world) rest

/-- The per-joint planning step of create_fk_controls
(src/video4_ik_fk_limb.py lines 47-89), per spec section 4.4 step 2: FK
controls mirror the joint chain, named by the second search/replace rule
and placed against the previous control's world transform. -/
noncomputable def fk_entries (search rep : String) :
    Option Mat4 → List JointSpec → List ControlPlanEntry
  | _, [] => []
  | parentWorld, j :: rest =>
    { kind := EntryKind.FkControl,
      name := strReplace j.name search rep,
      rotateOrder := none,
      offset := bake_trs_offsetParentMatrix j.world parentWorld } ::
      fk_entries search rep (some j.world) rest

/-- Default joint for positional lookups; never selected for the index
ranges the planner uses. -/
def defaultJoint : JointSpec :=
  ⟨"", 0, RotateOrder.xyz⟩

/-- The limb's start joint: the first of the ordered list. -/
def start_joint (spec : LimbSpec) : JointSpec :=
  spec.joints.getD 0 defaultJoint

/-- The limb's designated middle joint. -/
def mid_joint (spec : LimbSpec) : JointSpec :=
  spec.joints.getD ((spec.joints.length - 1) / 2) defaultJoint

/-- The limb's end joint: the last of the ordered list. -/
def end_joint (spec : LimbSpec) : JointSpec :=
  spec.joints.getD (spec.joints.length - 1) defaultJoint

/-- All names a plan resolves, in emission order: duplicate joints, FK
controls, the IK control, and the PV control when the limb has at least
three joints. -/
def plan_names (spec : LimbSpec) : List String :=
  spec.joints.map (fun j => strReplace j.name spec.search spec.replace) ++
  (spec.joints.map (fun j => strReplace j.name spec.fk_search spec.fk_replace) ++
    ([ik_control_name (end_joint spec).name] ++
      (if 3 ≤ spec.joints.length then [pv_control_name (end_joint spec).name] else [])))

/-- The planned IK control: named by the end joint's side tag, placed in
world space at the end joint's world position (spec section 4.4 step 3,
matching create_ik_control). -/
noncomputable def ik_entry (spec : LimbSpec) : ControlPlanEntry :=
  { kind := EntryKind.IkControl,
    name := ik_control_name (end_joint spec).name,
    rotateOrder := none,
    offset := translationMatrix (translationOf (end_joint spec).world) }

/-- The planned PV control at a computed pole-vector position (spec
section 4.4 step 4, matching create_pv_control). -/
noncomputable def pv_entry (spec : LimbSpec) (pvPos : Vec3) : ControlPlanEntry :=
  { kind := EntryKind.PvControl,
    name := pv_control_name (end_joint spec).name,
    rotateOrder := none,
    offset := translationMatrix pvPos }

/-- Modelled from the spec: the LimbRigPlanner's plan (spec section 4.4),
which has no counterpart under src/. It rejects an empty limb, fails
whole with NameCollisionError on any name collision (spec section 4.4
failure policy), and otherwise emits duplicate-joint entries, then
FK-control entries, then the IK control, then, for limbs of at least
three joints, the PV control placed by computePoleVectorPosition at the
source's minimum distance 5. -/
noncomputable def plan (spec : LimbSpec) : Except RigError (List ControlPlanEntry) :=
  if spec.joints.isEmpty then Except.error RigError.InvalidLimbSpecError
  else if (plan_names spec).Nodup then
    if 3 ≤ spec.joints.length then
      match computePoleVectorPosition (translationOf (start_joint spec).world)
          (translationOf (mid_joint spec).world)
          (translationOf (end_joint spec).world) 5 with
      | Except.error e => Except.error e
      | Except.ok pvPos =>
        Except.ok (dup_entries spec.search spec.replace none spec.joints ++
          fk_entries spec.fk_search spec.fk_replace none spec.joints ++
          [ik_entry spec, pv_entry spec pvPos])
    else
      Except.ok (dup_entries spec.search spec.replace none spec.joints ++
        fk_entries spec.fk_search spec.fk_replace none spec.joints ++
        [ik_entry spec])
  else Except.error RigError.NameCollisionError

theorem computePoleVectorPosition_ok (s m e : Vec3) (md : ℝ)
    (h : mag (bend_direction s m e) ≠ 0) :
    ∃ v, computePoleVectorPosition s m e md = Except.ok v := by
  rw [computePoleVectorPosition_cases]
  by_cases hlt : mag (bend_direction s m e) < md
  · rw [if_pos hlt, if_neg h]
    exact ⟨_, rfl⟩
  · rw [if_neg hlt]
    exact ⟨_, rfl⟩

theorem dup_entries_proj (search rep : String) (pw : Option Mat4) (js : List JointSpec) :
    (dup_entries search rep pw js).map (fun e => (e.kind, e.name, e.rotateOrder)) =
      js.map (fun j => (EntryKind.DuplicateJoint, strReplace j.name search rep,
        some j.rotateOrder)) := by
  induction js generalizing pw with
  | nil => rfl
  | cons j rest ih => simp [dup_entries, ih]

theorem fk_entries_kind (search rep : String) (pw : Option Mat4) (js : List JointSpec) :
    ∀ e ∈ fk_entries search rep pw js, e.kind = EntryKind.FkControl := by
  induction js generalizing pw with
  | nil =>
    intro e he
    simp [fk_entries] at he
  | cons j rest ih =>
    intro e he
    simp only [fk_entries, List.mem_cons] at he
    rcases he with h | h
    · rw [h]
    · exact ih _ _ h

/-- Claim C7: when two distinct joints resolve to the same duplicate-joint
name under the search/replace rule, plan fails whole with
NameCollisionError, so no entries at all are returned. -/
theorem plan_name_collision_error (spec : LimbSpec)
    (h : ¬ (spec.joints.map fun j => strReplace j.name spec.search spec.replace).Nodup) :
    plan spec = Except.error RigError.NameCollisionError := by
  have hnames : ¬ (plan_names spec).Nodup := by
    intro hall
    apply h
    have hsub : List.Sublist
        (spec.joints.map fun j => strReplace j.name spec.search spec.replace)
        (plan_names spec) := by
      simp only [plan_names]
      exact List.sublist_append_left _ _
    exact List.Nodup.sublist hsub hall
  have hempty : spec.joints.isEmpty = false := by
    cases hj : spec.joints with
    | nil =>
      exfalso
      apply h
      rw [hj]
      simp
    | cons a l => rfl
  unfold plan
  rw [if_neg (by rw [hempty]; exact Bool.false_ne_true), if_neg hnames]

/-- Witness for C7 at the spec's example collision: with the rule
replacing _a_ by _, the joints L_arm_a_jnt and L_arm_jnt both resolve to
L_arm_jnt, and planning fails with NameCollisionError. -/
theorem plan_name_collision_error_witness :
    plan { joints := [⟨"L_arm_a_jnt", 1, RotateOrder.xyz⟩, ⟨"L_arm_jnt", 1, RotateOrder.xyz⟩],
           search := "_a_", replace := "_",
           fk_search := "_jnt", fk_replace := "_fk_ctrl" } =
      Except.error RigError.NameCollisionError :=
  plan_name_collision_error _ (by decide)

/-- Claim C8: for a collision-free non-empty limb whose bend vector is not
degenerate, plan succeeds and emits the duplicate-joint entries first, one
per source joint in root-first order, named by the search/replace rule and
carrying the source rotate orders, followed by the FK-control entries,
followed only by the IK and PV entries. -/
theorem plan_duplicate_entries_first (spec : LimbSpec)
    (hne : spec.joints ≠ [])
    (hnd : (plan_names spec).Nodup)
    (hdeg : 3 ≤ spec.joints.length →
      mag (bend_direction (translationOf (start_joint spec).world)
        (translationOf (mid_joint spec).world)
        (translationOf (end_joint spec).world)) ≠ 0) :
    ∃ tail,
      plan spec = Except.ok
        (dup_entries spec.search spec.replace none spec.joints ++
          fk_entries spec.fk_search spec.fk_replace none spec.joints ++ tail) ∧
      (dup_entries spec.search spec.replace none spec.joints).map
          (fun e => (e.kind, e.name, e.rotateOrder)) =
        spec.joints.map (fun j => (EntryKind.DuplicateJoint,
          strReplace j.name spec.search spec.replace, some j.rotateOrder)) ∧
      (∀ e ∈ fk_entries spec.fk_search spec.fk_replace none spec.joints,
        e.kind = EntryKind.FkControl) ∧
      (∀ e ∈ tail, e.kind = EntryKind.IkControl ∨ e.kind = EntryKind.PvControl) := by
  have hempty : spec.joints.isEmpty = false := by
    cases hj : spec.joints with
    | nil => exact absurd hj hne
    | cons a l => rfl
  unfold plan
  rw [if_neg (by rw [hempty]; exact Bool.false_ne_true), if_pos hnd]
  by_cases h3 : 3 ≤ spec.joints.length
  · obtain ⟨v, hv⟩ := computePoleVectorPosition_ok
      (translationOf (start_joint spec).world) (translationOf (mid_joint spec).world)
      (translationOf (end_joint spec).world) 5 (hdeg h3)
    rw [if_pos h3, hv]
    refine ⟨[ik_entry spec, pv_entry spec v], rfl, dup_entries_proj _ _ _ _,
      fk_entries_kind _ _ _ _, ?_⟩
    intro e he
    simp only [List.mem_cons, List.not_mem_nil, or_false] at he
    rcases he with rfl | rfl
    · left
      rfl
    · right
      rfl
  · rw [if_neg h3]
    refine ⟨[ik_entry spec], rfl, dup_entries_proj _ _ _ _,
      fk_entries_kind _ _ _ _, ?_⟩
    intro e he
    simp only [List.mem_cons, List.not_mem_nil, or_false] at he
    subst he
    left
    rfl

/-- A concrete three-joint left-arm limb used to witness C8. -/
def sample_limb : LimbSpec :=
  { joints := [⟨"L_shoulder_skin", translationMatrix ⟨0, 0, 0⟩, RotateOrder.xyz⟩,
               ⟨"L_elbow_skin", translationMatrix ⟨0, 5, 0⟩, RotateOrder.yzx⟩,
               ⟨"L_wrist_skin", translationMatrix ⟨10, 0, 0⟩, RotateOrder.xyz⟩],
    search := "_skin", replace := "_jnt",
    fk_search := "_skin", fk_replace := "_fk_ctrl" }

/-- Witness for C8 on the sample three-joint limb. -/
theorem plan_duplicate_entries_first_witness :
    ∃ tail,
      plan sample_limb = Except.ok
        (dup_entries sample_limb.search sample_limb.replace none sample_limb.joints ++
          fk_entries sample_limb.fk_search sample_limb.fk_replace none sample_limb.joints ++
          tail) ∧
      (dup_entries sample_limb.search sample_limb.replace none sample_limb.joints).map
          (fun e => (e.kind, e.name, e.rotateOrder)) =
        sample_limb.joints.map (fun j => (EntryKind.DuplicateJoint,
          strReplace j.name sample_limb.search sample_limb.replace, some j.rotateOrder)) ∧
      (∀ e ∈ fk_entries sample_limb.fk_search sample_limb.fk_replace none
          sample_limb.joints, e.kind = EntryKind.FkControl) ∧
      (∀ e ∈ tail, e.kind = EntryKind.IkControl ∨ e.kind = EntryKind.PvControl) := by
  apply plan_duplicate_entries_first
  · exact List.cons_ne_nil _ _
  · decide
  · intro _
    have hs : translationOf (start_joint sample_limb).world = ⟨0, 0, 0⟩ :=
      translationOf_translationMatrix _
    have hmid : translationOf (mid_joint sample_limb).world = ⟨0, 5, 0⟩ :=
      translationOf_translationMatrix _
    have hend : translationOf (end_joint sample_limb).world = ⟨10, 0, 0⟩ :=
      translationOf_translationMatrix _
    rw [hs, hmid, hend]
    have hb : bend_direction ⟨0, 0, 0⟩ ⟨0, 5, 0⟩ ⟨10, 0, 0⟩ = ⟨-5, 5, 0⟩ := by
      norm_num [bend_direction, subtract_vectors, add_vectors, scale_vector]
    rw [hb]
    dsimp only [mag]
    exact Real.sqrt_ne_zero'.mpr (by norm_num)
